import Mathlib

/-!
Verification of the multi-client chat server (`chat_server.py`):
a shallow embedding of the server's registry and broadcast logic.

* Connection handles (Python `socket` objects used as dict keys) are
  modelled as natural numbers.
* The Python dict `self.clients` is modelled as an insertion-ordered
  association list `List (Nat × String)`; Python dicts preserve insertion
  order and `list(self.clients.keys())` iterates in that order.
* `threading.Lock` is non-reentrant: a thread that already holds the lock
  and executes another `with self.lock:` blocks forever.  Executions of
  `broadcast` are therefore modelled with an explicit event trace
  (acquire / send / release / block) and an outcome that can be a
  deadlock.
* Network sends can fail; a `sendOk : Nat → Bool` oracle says which
  handles accept a send (`False` = the `send` call raises).
-/

/-- Characters removed by Python `str.strip()` for ASCII input. -/
def pyWhitespace (c : Char) : Bool :=
  c == ' ' || c == '\t' || c == '\n' || c == '\r' || c == '\x0b' || c == '\x0c'

/-- Python `str.strip()`: drop leading and trailing whitespace. -/
def pyStrip (s : String) : String :=
  String.mk (((s.data.dropWhile pyWhitespace).reverse.dropWhile pyWhitespace).reverse)

/-- Python `str.lower()` restricted to ASCII: map `A`–`Z` to `a`–`z`. -/
def pyLowerChar (c : Char) : Char :=
  if 'A' ≤ c && c ≤ 'Z' then Char.ofNat (c.toNat + 32) else c

/-- Python `str.lower()` on a whole string (ASCII). -/
def pyLower (s : String) : String :=
  String.mk (s.data.map pyLowerChar)

/-- Python dict lookup `m[k]` / `k in m` on the ordered association list. -/
def dictGet : List (Nat × String) → Nat → Option String
  | [], _ => none
  | (k, v) :: rest, k' => if k = k' then some v else dictGet rest k'

/-- Python dict assignment `m[k] = v`: replace in place when the key is
present (keeping its position), otherwise append at the end. -/
def dictSet : List (Nat × String) → Nat → String → List (Nat × String)
  | [], k, v => [(k, v)]
  | (k0, v0) :: rest, k, v =>
      if k0 = k then (k, v) :: rest else (k0, v0) :: dictSet rest k v

/-- Python `del m[k]`: remove the entry with key `k` (dict keys are unique,
so removing the first occurrence is removal). -/
def dictDel : List (Nat × String) → Nat → List (Nat × String)
  | [], _ => []
  | (k0, v0) :: rest, k =>
      if k0 = k then rest else (k0, v0) :: dictDel rest k

/-- Server state visible to the registry operations: the `self.clients`
dict, plus the set of handles whose sockets have been `close()`d, so that
frame conditions about closing can be stated. -/
structure ServerState where
  clients : List (Nat × String)
  closed : List Nat
  deriving DecidableEq, Repr

/-- `ChatServer.remove_client` (chat_server.py lines 38–47): under the
lock, if the handle is a key of `clients`, delete it, close the socket and
return the nickname; otherwise return `None`.  Modelled as called with the
lock free (as from `handle_client`'s `finally`), so the `with self.lock`
succeeds. -/
def remove_client (st : ServerState) (sock : Nat) : Option String × ServerState :=
  match dictGet st.clients sock with
  | some nickname =>
      (some nickname,
        { clients := dictDel st.clients sock, closed := st.closed ++ [sock] })
  | none => (none, st)

/-- The registration step of `ChatServer.handle_client`
(chat_server.py lines 61–63): `self.clients[client_socket] = nickname`,
a plain dict assignment with no presence check. -/
def registerClient (st : ServerState) (sock : Nat) (nickname : String) : ServerState :=
  { st with clients := dictSet st.clients sock nickname }

/-- Nickname computation of `ChatServer.handle_client`
(chat_server.py lines 55–59): strip the received text; if the result is
empty, fabricate `User_{port}` from the remote port. -/
def handshakeNickname (raw : String) (port : Nat) : String :=
  let nickname := pyStrip raw
  if nickname = "" then "User_" ++ toString port else nickname

/-- The welcome line of chat_server.py line 65. -/
def welcome_msg (nickname : String) : String :=
  "Welcome " ++ nickname ++ "! You are now connected. Type messages to chat."

/-- The handshake-and-register prefix of `ChatServer.handle_client`
(chat_server.py lines 53–66): compute the nickname from the received
text and the peer port, insert it into `clients`, and build the welcome
line sent back.  Returns (new state, nickname, welcome line). -/
def handshakeRegister (st : ServerState) (sock : Nat) (raw : String) (port : Nat) :
    ServerState × String × String :=
  let nickname := handshakeNickname raw port
  (registerClient st sock nickname, nickname, welcome_msg nickname)

/-- What one iteration of the `Active` message loop does
(chat_server.py lines 74–89). -/
inductive LoopAction where
  | disconnect
  | quit
  | broadcastMsg (message : String) (exclude : Option Nat)
  deriving DecidableEq, Repr

/-- One iteration of the message loop of `ChatServer.handle_client`
(chat_server.py lines 74–89): `data` is what `recv` returned (`""` = peer
closed).  Empty data breaks the loop; a stripped message whose
lowercasing is `/quit` breaks the loop; anything else is formatted as
`[nickname] message` and broadcast excluding the sender's own socket. -/
def loopStep (nickname : String) (sock : Nat) (data : String) : LoopAction :=
  if data = "" then .disconnect
  else
    let message := pyStrip data
    if pyLower message = "/quit" then .quit
    else .broadcastMsg ("[" ++ nickname ++ "] " ++ message) (some sock)

/-- Lock/IO events of one `broadcast` execution. -/
inductive Ev where
  | acquire
  | send (sock : Nat)
  | release
  | blockedOnLock
  deriving DecidableEq, Repr

/-- Outcome of one `broadcast` execution: either the loop finished and
the lock was released, or the thread deadlocked re-acquiring the
non-reentrant lock inside `remove_client`.  `delivered` lists the handles
whose `send` succeeded, in iteration order. -/
inductive BroadcastResult where
  | completed (delivered : List Nat) (st : ServerState)
  | deadlocked (delivered : List Nat) (st : ServerState)
  deriving DecidableEq, Repr

/-- The loop of `ChatServer.broadcast` (chat_server.py lines 28–36) over
the key snapshot `list(self.clients.keys())`, run while holding
`self.lock`.  For each handle other than the sender, `send` is attempted:
on success the loop continues; on failure the `except` handler calls
`self.remove_client(client_socket)`, whose `with self.lock:` blocks
forever because `threading.Lock` is not reentrant and this thread already
holds it. -/
def broadcastGo (sendOk : Nat → Bool) (sender : Option Nat) (st : ServerState) :
    List Nat → List Nat → List Ev × BroadcastResult
  | [], delivered => ([.release], .completed delivered.reverse st)
  | s :: rest, delivered =>
      if some s = sender then broadcastGo sendOk sender st rest delivered
      else if sendOk s then
        (Ev.send s :: (broadcastGo sendOk sender st rest (s :: delivered)).1,
         (broadcastGo sendOk sender st rest (s :: delivered)).2)
      else ([.blockedOnLock], .deadlocked delivered.reverse st)

/-- `ChatServer.broadcast` (chat_server.py lines 24–36), called with the
lock free: acquire `self.lock`, snapshot the keys, run the delivery loop
under the lock.  Returns the event trace and the outcome. -/
def broadcastRun (sendOk : Nat → Bool) (st : ServerState) (sender : Option Nat) :
    List Ev × BroadcastResult :=
  (Ev.acquire :: (broadcastGo sendOk sender st (st.clients.map Prod.fst) []).1,
   (broadcastGo sendOk sender st (st.clients.map Prod.fst) []).2)

/-- The outcome of `ChatServer.broadcast`. -/
def broadcast (sendOk : Nat → Bool) (st : ServerState) (sender : Option Nat) :
    BroadcastResult :=
  (broadcastRun sendOk st sender).2

/-- The event trace of `ChatServer.broadcast`. -/
def broadcastTrace (sendOk : Nat → Bool) (st : ServerState) (sender : Option Nat) :
    List Ev :=
  (broadcastRun sendOk st sender).1

/-- Handles of `send` events performed while the lock is held, read off a
trace by tracking the lock depth. -/
def sendsWhileHeldGo : Nat → List Ev → List Nat
  | _, [] => []
  | d, .acquire :: tr => sendsWhileHeldGo (d + 1) tr
  | d, .release :: tr => sendsWhileHeldGo (d - 1) tr
  | d, .send s :: tr =>
      if 0 < d then s :: sendsWhileHeldGo d tr else sendsWhileHeldGo d tr
  | d, .blockedOnLock :: tr => sendsWhileHeldGo d tr

/-- Handles of `send` events performed while the lock is held, starting
with the lock free. -/
def sendsWhileHeld (tr : List Ev) : List Nat :=
  sendsWhileHeldGo 0 tr

/-- All handles sent to in a trace, whether or not the lock was held. -/
def sentHandles (tr : List Ev) : List Nat :=
  tr.filterMap fun e => match e with | .send s => some s | _ => none

/-- Outcome of `ChatServer.start` (chat_server.py lines 102–141) together
with the `__main__` epilogue: if `bind`/`listen` raises `OSError`, the
`except OSError` branch prints the error, the `finally` block closes the
sockets, `start` returns normally and the script falls off the end of
`__main__`, so the process exits with code 0.  On success the accept loop
runs; it ends only via `KeyboardInterrupt`, again exiting 0. -/
structure StartOutcome where
  errorReported : Bool
  acceptLoopEntered : Bool
  processExitCode : Nat
  deriving DecidableEq, Repr

/-- `ChatServer.start` plus process exit, parametrised by whether the
`bind`/`listen` calls succeed. -/
def serverStart (bindOk : Bool) : StartOutcome :=
  if bindOk then
    { errorReported := false, acceptLoopEntered := true, processExitCode := 0 }
  else
    { errorReported := true, acceptLoopEntered := false, processExitCode := 0 }

/-- The registry invariant of claim C10: every stored nickname is
non-empty. -/
def registryInv (st : ServerState) : Prop :=
  ∀ p ∈ st.clients, p.2 ≠ ""

/-! ### Dictionary lemmas -/

theorem dictGet_dictSet_self (m : List (Nat × String)) (k : Nat) (v : String) :
    dictGet (dictSet m k v) k = some v := by
  induction m with
  | nil => simp [dictSet, dictGet]
  | cons p rest ih =>
      obtain ⟨k0, v0⟩ := p
      by_cases h : k0 = k
      · simp [dictSet, dictGet, h]
      · simp [dictSet, dictGet, h, ih]

theorem dictGet_dictSet_ne (m : List (Nat × String)) (k k' : Nat) (v : String)
    (h : k' ≠ k) : dictGet (dictSet m k v) k' = dictGet m k' := by
  induction m with
  | nil => simp [dictSet, dictGet, Ne.symm h]
  | cons p rest ih =>
      obtain ⟨k0, v0⟩ := p
      by_cases h0 : k0 = k
      · subst h0
        simp [dictSet, dictGet, Ne.symm h]
      · simp [dictSet, dictGet, h0, ih]

theorem mem_dictSet {p : Nat × String} {m : List (Nat × String)} {k : Nat} {v : String}
    (h : p ∈ dictSet m k v) : p = (k, v) ∨ p ∈ m := by
  induction m with
  | nil => simpa [dictSet] using h
  | cons q rest ih =>
      obtain ⟨k0, v0⟩ := q
      by_cases hk : k0 = k
      · simp [dictSet, hk] at h
        rcases h with h | h
        · exact Or.inl (by simp [h])
        · exact Or.inr (by simp [h])
      · simp [dictSet, hk] at h
        rcases h with h | h
        · exact Or.inr (by simp [h])
        · rcases ih h with h1 | h1
          · exact Or.inl h1
          · exact Or.inr (by simp [h1])

theorem mem_keys_dictSet {a : Nat} {m : List (Nat × String)} {k : Nat} {v : String}
    (h : a ∈ (dictSet m k v).map Prod.fst) : a ∈ m.map Prod.fst ∨ a = k := by
  induction m with
  | nil => simpa [dictSet] using h
  | cons q rest ih =>
      obtain ⟨k0, v0⟩ := q
      by_cases hk : k0 = k
      · subst hk
        simp only [dictSet, if_true, eq_self_iff_true, List.map_cons, List.mem_cons] at h
        rcases h with h | h
        · exact Or.inr h
        · exact Or.inl (List.mem_cons_of_mem _ h)
      · simp only [dictSet, if_neg hk, List.map_cons, List.mem_cons] at h
        rcases h with h | h
        · exact Or.inl (by simp [h])
        · rcases ih h with h1 | h1
          · exact Or.inl (List.mem_cons_of_mem _ h1)
          · exact Or.inr h1

theorem nodup_keys_dictSet (m : List (Nat × String)) (k : Nat) (v : String)
    (h : (m.map Prod.fst).Nodup) : ((dictSet m k v).map Prod.fst).Nodup := by
  induction m with
  | nil => simp [dictSet]
  | cons q rest ih =>
      obtain ⟨k0, v0⟩ := q
      simp only [List.map_cons, List.nodup_cons] at h
      by_cases hk : k0 = k
      · subst hk
        simpa [dictSet, List.nodup_cons] using h
      · simp only [dictSet, if_neg hk, List.map_cons, List.nodup_cons]
        refine ⟨?_, ih h.2⟩
        intro hmem
        rcases mem_keys_dictSet hmem with h1 | h1
        · exact h.1 h1
        · exact hk h1

theorem dictGet_eq_none_of_not_mem {m : List (Nat × String)} {k : Nat}
    (h : k ∉ m.map Prod.fst) : dictGet m k = none := by
  induction m with
  | nil => simp [dictGet]
  | cons q rest ih =>
      obtain ⟨k0, v0⟩ := q
      simp only [List.map_cons, List.mem_cons] at h
      push_neg at h
      simp [dictGet, Ne.symm h.1, ih h.2]

theorem dictGet_dictDel_self (m : List (Nat × String)) (k : Nat)
    (h : (m.map Prod.fst).Nodup) : dictGet (dictDel m k) k = none := by
  induction m with
  | nil => simp [dictDel, dictGet]
  | cons q rest ih =>
      obtain ⟨k0, v0⟩ := q
      simp only [List.map_cons, List.nodup_cons] at h
      by_cases hk : k0 = k
      · subst hk
        simpa [dictDel] using dictGet_eq_none_of_not_mem h.1
      · simp [dictDel, hk, dictGet, ih h.2]

theorem mem_dictDel {p : Nat × String} {m : List (Nat × String)} {k : Nat}
    (h : p ∈ dictDel m k) : p ∈ m := by
  induction m with
  | nil => simp [dictDel] at h
  | cons q rest ih =>
      obtain ⟨k0, v0⟩ := q
      by_cases hk : k0 = k
      · simp [dictDel, hk] at h
        exact List.mem_cons_of_mem _ h
      · simp [dictDel, hk] at h
        rcases h with h | h
        · exact List.mem_cons.mpr (Or.inl (by simp [h]))
        · exact List.mem_cons_of_mem _ (ih h)

/-! ### Broadcast loop lemmas -/

theorem broadcastGo_all_ok (sendOk : Nat → Bool) (sender : Option Nat) (st : ServerState)
    (l : List Nat) (acc : List Nat) (hok : ∀ h ∈ l, sendOk h = true) :
    broadcastGo sendOk sender st l acc =
      (((l.filter fun h => decide (some h ≠ sender)).map Ev.send) ++ [Ev.release],
       .completed (acc.reverse ++ (l.filter fun h => decide (some h ≠ sender))) st) := by
  induction l generalizing acc with
  | nil => simp [broadcastGo]
  | cons s rest ih =>
      have hrest : ∀ h ∈ rest, sendOk h = true :=
        fun h hm => hok h (List.mem_cons_of_mem _ hm)
      by_cases hs : some s = sender
      · simp [broadcastGo, hs, ih _ hrest, List.filter_cons]
      · have hsend : sendOk s = true := hok s (List.mem_cons_self _ _)
        simp [broadcastGo, hs, hsend, ih _ hrest, List.filter_cons]

theorem sendsWhileHeldGo_one (sendOk : Nat → Bool) (sender : Option Nat) (st : ServerState)
    (l : List Nat) (acc : List Nat) :
    sendsWhileHeldGo 1 (broadcastGo sendOk sender st l acc).1 =
      sentHandles (broadcastGo sendOk sender st l acc).1 := by
  induction l generalizing acc with
  | nil => simp [broadcastGo, sendsWhileHeldGo, sentHandles]
  | cons s rest ih =>
      by_cases hs : some s = sender
      · simp [broadcastGo, hs, ih]
      · by_cases hsend : sendOk s = true
        · simp [broadcastGo, hs, hsend, sendsWhileHeldGo, sentHandles, ih]
        · simp [broadcastGo, hs, hsend, sendsWhileHeldGo, sentHandles]

/-! ### String lemmas -/

theorem user_nickname_ne_empty (t : String) : ("User_" ++ t) ≠ "" := by
  obtain ⟨l⟩ := t
  intro h
  simpa using congrArg String.data h

theorem handshakeNickname_ne_empty (raw : String) (port : Nat) :
    handshakeNickname raw port ≠ "" := by
  unfold handshakeNickname
  by_cases h : pyStrip raw = ""
  · simpa [h] using user_nickname_ne_empty (toString port)
  · simp [h]

/-! ### Claim theorems -/

/-- C1 (code bug): when a send fails during `broadcast`, the `except`
handler calls `remove_client`, which blocks forever acquiring the
non-reentrant `threading.Lock` that `broadcast` already holds.  At the
concrete registry {10 ↦ alice (sender), 11 ↦ bob (send fails), 12 ↦ carol},
the broadcast deadlocks with nothing delivered: carol never receives the
message, and bob is neither unregistered nor closed (the state is
unchanged) — contradicting the claim that the failure is isolated and the
broadcast completes. -/
theorem broadcast_send_failure_deadlocks :
    broadcast (fun h => h != 11) ⟨[(10, "alice"), (11, "bob"), (12, "carol")], []⟩ (some 10) =
      .deadlocked [] ⟨[(10, "alice"), (11, "bob"), (12, "carol")], []⟩ ∧
    dictGet [(10, "alice"), (11, "bob"), (12, "carol")] 11 = some "bob" := by
  exact ⟨rfl, rfl⟩

/-- C2 (counterexample): with two registered clients and all sends
succeeding, both `send` calls of `broadcast` happen while the registry
lock is held — the claim that network sends never occur under the lock is
false. -/
theorem broadcast_sends_under_lock_example :
    sendsWhileHeld (broadcastTrace (fun _ => true) ⟨[(1, "alice"), (2, "bob")], []⟩ none) =
      [1, 2] ∧
    sendsWhileHeld (broadcastTrace (fun _ => true) ⟨[(1, "alice"), (2, "bob")], []⟩ none) ≠
      [] := by
  exact ⟨rfl, by decide⟩

/-- C2 (amended): in every execution of `broadcast`, every send happens
while the registry lock is held: `broadcast` acquires the lock, copies the
key list, and delivers to the snapshot under the same lock. -/
theorem broadcast_all_sends_under_lock (sendOk : Nat → Bool) (st : ServerState)
    (sender : Option Nat) :
    sendsWhileHeld (broadcastTrace sendOk st sender) =
      sentHandles (broadcastTrace sendOk st sender) := by
  have h := sendsWhileHeldGo_one sendOk sender st (st.clients.map Prod.fst) []
  simpa [sendsWhileHeld, broadcastTrace, broadcastRun, sendsWhileHeldGo, sentHandles] using h

/-- C3: `remove_client` is idempotent.  On a registered handle it returns
the stored nickname and removes the record; a second call on the same
handle returns `none` and leaves the state (registry and closed set)
completely unchanged. -/
theorem remove_client_idempotent (st : ServerState) (h : Nat) (nick : String)
    (hnd : (st.clients.map Prod.fst).Nodup)
    (hreg : dictGet st.clients h = some nick) :
    (remove_client st h).1 = some nick ∧
    dictGet (remove_client st h).2.clients h = none ∧
    remove_client (remove_client st h).2 h = (none, (remove_client st h).2) := by
  have h2 : dictGet (remove_client st h).2.clients h = none := by
    simp only [remove_client, hreg]
    exact dictGet_dictDel_self _ _ hnd
  refine ⟨by simp [remove_client, hreg], h2, ?_⟩
  generalize hst : (remove_client st h).2 = st' at h2 ⊢
  simp [remove_client, h2]

/-- Witness for C3 at a concrete two-client registry. -/
theorem remove_client_idempotent_witness :
    (remove_client ⟨[(1, "alice"), (2, "bob")], []⟩ 1).1 = some "alice" ∧
    remove_client (remove_client ⟨[(1, "alice"), (2, "bob")], []⟩ 1).2 1 =
      (none, (remove_client ⟨[(1, "alice"), (2, "bob")], []⟩ 1).2) := by
  have h := remove_client_idempotent ⟨[(1, "alice"), (2, "bob")], []⟩ 1 "alice"
    (by decide) rfl
  exact ⟨h.1, h.2.2⟩

/-- C4: when every send succeeds, `broadcast` completes and delivers to
exactly the registered handles other than the sender, in registry order;
the sender is never among the recipients; and with no exclusion
(`sender = none`, system notices) every registered handle receives the
message. -/
theorem broadcast_excludes_sender (st : ServerState) (sendOk : Nat → Bool)
    (sender : Option Nat)
    (hok : ∀ h ∈ st.clients.map Prod.fst, sendOk h = true) :
    broadcast sendOk st sender =
      .completed ((st.clients.map Prod.fst).filter fun h => decide (some h ≠ sender)) st ∧
    (∀ s : Nat, sender = some s →
      s ∉ (st.clients.map Prod.fst).filter fun h => decide (some h ≠ sender)) ∧
    (sender = none →
      ((st.clients.map Prod.fst).filter fun h => decide (some h ≠ sender)) =
        st.clients.map Prod.fst) := by
  refine ⟨?_, ?_, ?_⟩
  · simp [broadcast, broadcastRun, broadcastGo_all_ok sendOk sender st _ [] hok]
  · intro s hs hmem
    rw [hs] at hmem
    have := (List.mem_filter.mp hmem).2
    simp at this
  · intro hs
    rw [hs]
    apply List.filter_eq_self.mpr
    intro a _
    simp

/-- Witness for C4: three clients, sender 1 excluded, and a no-exclusion
system notice. -/
theorem broadcast_excludes_sender_witness :
    broadcast (fun _ => true) ⟨[(1, "a"), (2, "b"), (3, "c")], []⟩ (some 1) =
      .completed [2, 3] ⟨[(1, "a"), (2, "b"), (3, "c")], []⟩ ∧
    broadcast (fun _ => true) ⟨[(1, "a"), (2, "b"), (3, "c")], []⟩ none =
      .completed [1, 2, 3] ⟨[(1, "a"), (2, "b"), (3, "c")], []⟩ := by
  constructor
  · have h := broadcast_excludes_sender ⟨[(1, "a"), (2, "b"), (3, "c")], []⟩
      (fun _ => true) (some 1) (by intro h hm; rfl)
    rw [h.1]; rfl
  · have h := broadcast_excludes_sender ⟨[(1, "a"), (2, "b"), (3, "c")], []⟩
      (fun _ => true) none (by intro h hm; rfl)
    rw [h.1]; rfl

/-- C5: a handshake input that is empty or only whitespace after
stripping yields the fabricated nickname `User_{port}` from the remote
port; the client is registered under it and the welcome line
`Welcome {nickname}! You are now connected. Type messages to chat.` is
produced (the handler is total here — no protocol error path exists); and
any non-blank stripped input is used verbatim, with no uniqueness
check. -/
theorem handshake_blank_nickname (st : ServerState) (sock : Nat) (raw : String)
    (port : Nat) (hblank : pyStrip raw = "") :
    (handshakeRegister st sock raw port).2.1 = "User_" ++ toString port ∧
    dictGet (handshakeRegister st sock raw port).1.clients sock =
      some ("User_" ++ toString port) ∧
    (handshakeRegister st sock raw port).2.2 =
      "Welcome " ++ ("User_" ++ toString port) ++
        "! You are now connected. Type messages to chat." ∧
    (∀ raw2 : String, pyStrip raw2 ≠ "" → handshakeNickname raw2 port = pyStrip raw2) := by
  have hn : handshakeNickname raw port = "User_" ++ toString port := by
    simp [handshakeNickname, hblank]
  refine ⟨?_, ?_, ?_, ?_⟩
  · simp [handshakeRegister, hn]
  · simp [handshakeRegister, registerClient, hn, dictGet_dictSet_self]
  · simp [handshakeRegister, hn, welcome_msg]
  · intro raw2 h2
    simp [handshakeNickname, h2]

/-- Witness for C5: a whitespace-only handshake at port 5000, and a
non-blank handshake used verbatim. -/
theorem handshake_blank_nickname_witness :
    (handshakeRegister ⟨[], []⟩ 7 " \t " 5000).2.1 = "User_5000" ∧
    handshakeNickname "  bob " 5000 = "bob" := by
  have h := handshake_blank_nickname ⟨[], []⟩ 7 " \t " 5000 (by decide)
  constructor
  · rw [h.1]; rfl
  · have h4 := h.2.2.2 "  bob " (by decide)
    rw [h4]; rfl

/-- C6: in the message loop, non-empty received data whose stripped text
lowercases to `/quit` makes the handler leave the loop (session
termination) without any broadcast; any other received data whose
stripped text is non-empty is broadcast to all but the sender's own
socket, formatted `[nickname] text`, and the loop continues. -/
theorem loopStep_quit_and_rebroadcast (nickname : String) (sock : Nat) (data : String)
    (hne : data ≠ "") :
    (pyLower (pyStrip data) = "/quit" → loopStep nickname sock data = .quit) ∧
    (pyStrip data ≠ "" → pyLower (pyStrip data) ≠ "/quit" →
      loopStep nickname sock data =
        .broadcastMsg ("[" ++ nickname ++ "] " ++ pyStrip data) (some sock)) := by
  constructor
  · intro hq
    simp [loopStep, hne, hq]
  · intro _ hq
    simp [loopStep, hne, hq]

/-- Witness for C6: `/QuIt` quits; ` hello ` from alice is rebroadcast as
`[alice] hello` excluding alice's socket 7. -/
theorem loopStep_quit_and_rebroadcast_witness :
    loopStep "alice" 7 "/QuIt" = .quit ∧
    loopStep "alice" 7 " hello " = .broadcastMsg "[alice] hello" (some 7) := by
  constructor
  · exact (loopStep_quit_and_rebroadcast "alice" 7 "/QuIt" (by decide)).1 (by decide)
  · have h := (loopStep_quit_and_rebroadcast "alice" 7 " hello " (by decide)).2
      (by decide) (by decide)
    rw [h]; rfl

/-- C7 (counterexample): with handle 1 already registered as `alice`,
the registration step (`self.clients[client_socket] = nickname`) does not
fail: it silently replaces the record with `bob`. -/
theorem registerClient_replaces_example :
    dictGet (⟨[(1, "alice")], []⟩ : ServerState).clients 1 = some "alice" ∧
    registerClient ⟨[(1, "alice")], []⟩ 1 "bob" = ⟨[(1, "bob")], []⟩ := by
  exact ⟨rfl, rfl⟩

/-- C7 (amended): registration is an unconditional dict assignment: the
handle ends up mapped to the new nickname, every other handle's record is
untouched, and key uniqueness (a handle appears at most once) is
preserved — but an existing record is silently replaced, never a
failure. -/
theorem registerClient_assigns (st : ServerState) (sock : Nat) (nick : String) :
    dictGet (registerClient st sock nick).clients sock = some nick ∧
    (∀ k : Nat, k ≠ sock →
      dictGet (registerClient st sock nick).clients k = dictGet st.clients k) ∧
    ((st.clients.map Prod.fst).Nodup →
      ((registerClient st sock nick).clients.map Prod.fst).Nodup) := by
  refine ⟨?_, ?_, ?_⟩
  · simp [registerClient, dictGet_dictSet_self]
  · intro k hk
    simp [registerClient, dictGet_dictSet_ne _ _ _ _ hk]
  · intro hnd
    simpa [registerClient] using nodup_keys_dictSet st.clients sock nick hnd

/-- Witness for C7's amended statement at the counterexample state. -/
theorem registerClient_assigns_witness :
    dictGet (registerClient ⟨[(1, "alice")], []⟩ 1 "bob").clients 1 = some "bob" ∧
    dictGet (registerClient ⟨[(1, "alice")], []⟩ 1 "bob").clients 2 =
      dictGet (⟨[(1, "alice")], []⟩ : ServerState).clients 2 := by
  exact ⟨(registerClient_assigns ⟨[(1, "alice")], []⟩ 1 "bob").1,
    (registerClient_assigns ⟨[(1, "alice")], []⟩ 1 "bob").2.1 2 (by decide)⟩

/-- C8 (counterexample): when `bind`/`listen` fails, the error is indeed
reported, but the `except OSError` branch swallows the exception, `start`
returns normally and the script ends — the process exit code is 0, so
"exits non-zero" is false. -/
theorem serverStart_exit_nonzero_false :
    ¬ ((serverStart false).errorReported = true ∧
       (serverStart false).processExitCode ≠ 0) := by
  intro h
  exact h.2 rfl

/-- C8 (amended): on bind/listen failure the error is reported and the
accept loop is never entered (the server stops), but the process exits
with code 0. -/
theorem serverStart_bind_failure_behaviour :
    (serverStart false).errorReported = true ∧
    (serverStart false).acceptLoopEntered = false ∧
    (serverStart false).processExitCode = 0 := by
  exact ⟨rfl, rfl, rfl⟩

/-- C9: `remove_client` on an unregistered handle returns `none` and is a
complete no-op: the registry mapping and the set of closed sockets are
both unchanged, so the socket is not closed by this call. -/
theorem remove_client_absent (st : ServerState) (h : Nat)
    (habs : dictGet st.clients h = none) :
    remove_client st h = (none, st) := by
  simp [remove_client, habs]

/-- Witness for C9: removing absent handle 2 from a one-client registry
changes nothing and closes nothing. -/
theorem remove_client_absent_witness :
    remove_client ⟨[(1, "alice")], []⟩ 2 = (none, ⟨[(1, "alice")], []⟩) :=
  remove_client_absent ⟨[(1, "alice")], []⟩ 2 rfl

/-- C10: every nickname stored in the registry is non-empty, and this
invariant is preserved by the operations that touch the registry: the
handshake registration step (a blank input is replaced by the non-empty
`User_{port}` before insertion, a non-blank one is itself non-empty) and
`remove_client`. -/
theorem registry_nicknames_nonempty (st : ServerState) (sock : Nat) (raw : String)
    (port : Nat) (h : Nat) (hinv : registryInv st) :
    registryInv (handshakeRegister st sock raw port).1 ∧
    registryInv (remove_client st h).2 := by
  constructor
  · intro p hp
    simp only [handshakeRegister, registerClient] at hp
    rcases mem_dictSet hp with h1 | h1
    · rw [h1]
      exact handshakeNickname_ne_empty raw port
    · exact hinv p h1
  · cases hget : dictGet st.clients h with
    | some nick =>
        intro p hp
        simp only [remove_client, hget] at hp
        exact hinv p (mem_dictDel hp)
    | none =>
        simpa [remove_client, hget] using hinv

/-- Witness for C10: the invariant holds after a blank handshake into the
empty registry and after removing a handle. -/
theorem registry_nicknames_nonempty_witness :
    registryInv (handshakeRegister ⟨[], []⟩ 1 "" 5000).1 ∧
    registryInv (remove_client ⟨[], []⟩ 3).2 :=
  registry_nicknames_nonempty ⟨[], []⟩ 1 "" 5000 3 (by intro p hp; cases hp)
